import Mathlib

/-!
Verification development for the MediMatch prescription-OCR core
(`prescription_ocr/` package: `error_correction.py`, `medical_ner.py`,
`ocr_engine.py`, `preprocessing.py`, `pipeline.py`).

Texts are modelled as `List Char` (ASCII fragment of Python `str`),
confidences as `ℚ`.  Python `re` substitutions are modelled by an explicit
leftmost, non-overlapping scanner (`reSub`); for every pattern embedded here
greedy matching never needs backtracking (shrinking a greedy run always puts
a character of the same class next, which the following pattern element
rejects), so the deterministic greedy matchers below implement exactly the
Python semantics of those patterns.
-/

namespace MediMatch

/-! ## Character classes (ASCII model of Python `re` classes and `str` methods) -/

/-- Python `\s` on ASCII: space, tab, newline, carriage return, vertical tab, form feed. -/
def isPySpace (c : Char) : Bool :=
  c = ' ' || c = '\t' || c = '\n' || c = '\r' || c = '\x0b' || c = '\x0c'

/-- ASCII letter, Python `[a-zA-Z]`. -/
def isAsciiLetter (c : Char) : Bool := c.isAlpha

/-- Python `\w` on ASCII: letters, digits, underscore. -/
def isWordChar (c : Char) : Bool := c.isAlphanum || c = '_'

/-- Word-character test on an optional preceding character (`none` = string start),
used for `\b` word-boundary checks. -/
def isWordCharO : Option Char → Bool
  | none => false
  | some c => isWordChar c

/-! ## List-of-char utilities mirroring Python `str` operations -/

/-- Does `pre` occur at the start of `s`? -/
def listStartsWith : List Char → List Char → Bool
  | [], _ => true
  | _ :: _, [] => false
  | a :: as, b :: bs => a = b && listStartsWith as bs

/-- Python `needle in hay` (substring containment). -/
def containsSub (needle : List Char) : List Char → Bool
  | [] => needle.isEmpty
  | c :: cs => listStartsWith needle (c :: cs) || containsSub needle cs

/-- Python `str.lower()` (ASCII). -/
def pyLower (s : List Char) : List Char := s.map Char.toLower

/-- Python `str.strip()` (ASCII whitespace). -/
def pyStrip (s : List Char) : List Char :=
  ((s.dropWhile isPySpace).reverse.dropWhile isPySpace).reverse

/-- Helper for `pySplit`: accumulate the current word while scanning. -/
def pySplitAux : List Char → List Char → List (List Char)
  | [], cur => if cur.isEmpty then [] else [cur]
  | c :: cs, cur =>
    if isPySpace c then
      if cur.isEmpty then pySplitAux cs [] else cur :: pySplitAux cs []
    else pySplitAux cs (cur ++ [c])

/-- Python `str.split()` with no argument: split on whitespace runs, no empty words. -/
def pySplit (s : List Char) : List (List Char) := pySplitAux s []

/-- Python `str.split('\n')`: split on every newline, keeping empty lines. -/
def splitOnNewline : List Char → List (List Char)
  | [] => [[]]
  | c :: cs =>
    if c = '\n' then [] :: splitOnNewline cs
    else
      match splitOnNewline cs with
      | [] => [[c]]
      | w :: ws => (c :: w) :: ws

/-! ## Generic leftmost scanner for `re.sub` / `re.finditer`

A matcher receives the previous original character (for `\b`) and the rest of
the input, and returns `(replacement-or-captured-value, consumed-length)` for a
match anchored at the current position.  `reSub` rebuilds the text replacing
every leftmost non-overlapping match and counts the matches; `findAll`
collects the captured values.  Both scan the *original* text throughout, as
Python `re` does. -/

/-- Fuel-driven worker for `reSub` (fuel `≥` input length always suffices,
every step consumes at least one character). -/
def reSubFuel (m : Option Char → List Char → Option (List Char × Nat)) :
    Nat → Option Char → List Char → List Char × Nat
  | 0, _, s => (s, 0)
  | _ + 1, _, [] => ([], 0)
  | fuel + 1, prev, c :: cs =>
    match m prev (c :: cs) with
    | some (rep, k) =>
      if k = 0 then
        let r := reSubFuel m fuel (some c) cs
        (c :: r.1, r.2)
      else
        let r := reSubFuel m fuel ((c :: cs).take k).getLast? ((c :: cs).drop k)
        (rep ++ r.1, r.2 + 1)
    | none =>
      let r := reSubFuel m fuel (some c) cs
      (c :: r.1, r.2)

/-- `re.sub` with a single-position matcher: returns the rewritten text and the
number of matches replaced. -/
def reSub (m : Option Char → List Char → Option (List Char × Nat)) (s : List Char) :
    List Char × Nat :=
  reSubFuel m s.length none s

/-- Fuel-driven worker for `findAll`. -/
def findAllFuel (m : Option Char → List Char → Option (List Char × Nat)) :
    Nat → Option Char → List Char → List (List Char)
  | 0, _, _ => []
  | _ + 1, _, [] => []
  | fuel + 1, prev, c :: cs =>
    match m prev (c :: cs) with
    | some (v, k) =>
      if k = 0 then findAllFuel m fuel (some c) cs
      else v :: findAllFuel m fuel ((c :: cs).take k).getLast? ((c :: cs).drop k)
    | none => findAllFuel m fuel (some c) cs

/-- `re.finditer` collecting one captured value per leftmost non-overlapping match. -/
def findAll (m : Option Char → List Char → Option (List Char × Nat)) (s : List Char) :
    List (List Char) :=
  findAllFuel m s.length none s

/-! ## `PrescriptionErrorCorrector._correct_ocr_patterns`
(`error_correction.py` lines 95-118).  The five live substitutions of the
character-confusion pass.  Note: the `ocr_patterns` table built in `__init__`
(lines 29-42) is never referenced by any method, so its rules (standalone
`O`→`0`, `l`/`I`→`1`, `S`→`5` before a digit, `O`→`0` after a digit) are
*not* part of the behaviour embedded here. -/

/-- `re.sub(r'(\d+)O+(\s*mg)', r'\g<1>00\2', text)`: a digit run, then a run of
letter `O`, then optional spaces and `mg`; the `O` run becomes literal `00`. -/
def matchDigitsOmg (s : List Char) : Option (List Char × Nat) :=
  let ds := s.takeWhile Char.isDigit
  let r1 := s.dropWhile Char.isDigit
  if ds.isEmpty then none else
  let os := r1.takeWhile (fun c => c = 'O')
  let r2 := r1.dropWhile (fun c => c = 'O')
  if os.isEmpty then none else
  let sp := r2.takeWhile isPySpace
  let r3 := r2.dropWhile isPySpace
  match r3 with
  | 'm' :: 'g' :: _ =>
    some (ds ++ '0' :: '0' :: (sp ++ ['m', 'g']),
          ds.length + os.length + sp.length + 2)
  | _ => none

/-- `re.sub(r'(\d+)O(\d+)', lambda m: m.group(0).replace('O', '0'), text)`. -/
def matchDigitsODigits (s : List Char) : Option (List Char × Nat) :=
  let d1 := s.takeWhile Char.isDigit
  let r1 := s.dropWhile Char.isDigit
  if d1.isEmpty then none else
  match r1 with
  | 'O' :: r2 =>
    let d2 := r2.takeWhile Char.isDigit
    if d2.isEmpty then none else some (d1 ++ '0' :: d2, d1.length + 1 + d2.length)
  | _ => none

/-- `re.sub(r'\bl-(\d)-l\b', r'1-\1-1', text)`. -/
def matchLdl (prev : Option Char) (s : List Char) : Option (List Char × Nat) :=
  if isWordCharO prev then none else
  match s with
  | 'l' :: '-' :: d :: '-' :: 'l' :: rest =>
    if d.isDigit && !(match rest with | [] => false | x :: _ => isWordChar x) then
      some (['1', '-', d, '-', '1'], 5)
    else none
  | _ => none

/-- `re.sub(r'I-(\d)-I', r'1-\1-1', text)` (no word boundaries in the source pattern). -/
def matchIdI (s : List Char) : Option (List Char × Nat) :=
  match s with
  | 'I' :: '-' :: d :: '-' :: 'I' :: _ =>
    if d.isDigit then some (['1', '-', d, '-', '1'], 5) else none
  | _ => none

/-- `re.sub(r'\bS\s+days\b', '5 days', text, flags=re.IGNORECASE)`. -/
def matchSdays (prev : Option Char) (s : List Char) : Option (List Char × Nat) :=
  if isWordCharO prev then none else
  match s with
  | [] => none
  | c :: rest =>
    if c.toLower = 's' then
      let sp := rest.takeWhile isPySpace
      let r2 := rest.dropWhile isPySpace
      if sp.isEmpty then none else
      match r2 with
      | c1 :: c2 :: c3 :: c4 :: r3 =>
        if c1.toLower = 'd' && c2.toLower = 'a' && c3.toLower = 'y' && c4.toLower = 's'
            && !(match r3 with | [] => false | x :: _ => isWordChar x) then
          some ("5 days".data, 1 + sp.length + 4)
        else none
      | _ => none
    else none

/-- The five substitutions of `_correct_ocr_patterns`, in source order. -/
def ocrPassText (text : List Char) : List Char :=
  let t1 := (reSub (fun _ s => matchDigitsOmg s) text).1
  let t2 := (reSub (fun _ s => matchDigitsODigits s) t1).1
  let t3 := (reSub matchLdl t2).1
  let t4 := (reSub (fun _ s => matchIdI s) t3).1
  (reSub matchSdays t4).1

/-- Position-wise character differences of `zip(original, text)`
(Python truncates to the shorter string). -/
def countCharDiffs (a b : List Char) : Nat :=
  (a.zip b).countP (fun p => p.1 != p.2)

/-- `PrescriptionErrorCorrector._correct_ocr_patterns`: rewritten text plus the
correction count (`0` when the text is unchanged, otherwise the number of
position-wise character differences). -/
def correctOcrPatterns (text : List Char) : List Char × Nat :=
  let t := ocrPassText text
  (t, if t = text then 0 else countCharDiffs text t)

/-! ## `PrescriptionErrorCorrector._correct_dosage_format`
(`error_correction.py` lines 120-142). -/

/-- Character class `[Oo\d]`. -/
def isOoDigit (c : Char) : Bool := c = 'O' || c = 'o' || c.isDigit

/-- Character class `[-–]` (hyphen or en dash). -/
def isDashChar (c : Char) : Bool := c = '-' || c = '–'

/-- Python `w.isdigit()` (ASCII): nonempty and all digits. -/
def pyIsDigitStr (w : List Char) : Bool := !w.isEmpty && w.all Char.isDigit

/-- Python `g in 'Oo'`: `g` is a substring of the two-character string `"Oo"`. -/
def pyInOo (g : List Char) : Bool :=
  g = [] || g = ['O'] || g = ['o'] || g = ['O', 'o']

/-- The filter in `fix_dosage`: `g.isdigit() or g in 'Oo'`. -/
def dosageKeep (g : List Char) : Bool := pyIsDigitStr g || pyInOo g

/-- `g.replace('O', '0').replace('o', '0')`. -/
def oTo0 (g : List Char) : List Char :=
  g.map (fun c => if c = 'O' || c = 'o' then '0' else c)

/-- `re.sub(r'(\d+)\s*[-–]\s*([Oo\d]+)\s*[-–]\s*(\d+)', fix_dosage, text)`:
the replacement joins the kept, `O`-to-`0`-rewritten groups with `-`. -/
def matchDosageTriple (s : List Char) : Option (List Char × Nat) :=
  let g1 := s.takeWhile Char.isDigit
  let r1 := s.dropWhile Char.isDigit
  if g1.isEmpty then none else
  let sp1 := r1.takeWhile isPySpace
  let r2 := r1.dropWhile isPySpace
  match r2 with
  | d1 :: r3 =>
    if isDashChar d1 then
      let sp2 := r3.takeWhile isPySpace
      let r4 := r3.dropWhile isPySpace
      let g2 := r4.takeWhile isOoDigit
      let r5 := r4.dropWhile isOoDigit
      if g2.isEmpty then none else
      let sp3 := r5.takeWhile isPySpace
      let r6 := r5.dropWhile isPySpace
      match r6 with
      | d2 :: r7 =>
        if isDashChar d2 then
          let sp4 := r7.takeWhile isPySpace
          let r8 := r7.dropWhile isPySpace
          let g3 := r8.takeWhile Char.isDigit
          if g3.isEmpty then none else
          some (List.intercalate ['-'] (([g1, g2, g3].filter dosageKeep).map oTo0),
                g1.length + sp1.length + 1 + sp2.length + g2.length +
                  sp3.length + 1 + sp4.length + g3.length)
        else none
      | _ => none
    else none
  | _ => none

/-- `PrescriptionErrorCorrector._correct_dosage_format`: rewritten text plus the
number of matches (`fix_dosage` increments the counter once per match, even
when the replacement equals the matched text). -/
def correctDosageFormat (text : List Char) : List Char × Nat :=
  reSub (fun _ s => matchDosageTriple s) text

/-! ## Fuzzy drug-name matching
(`rapidfuzz.fuzz.ratio` / `process.extractOne` as used by
`_fuzzy_match_drug` and `_correct_drug_names`, `error_correction.py`
lines 144-203). -/

/-- Fuel-driven longest-common-subsequence length (fuel `|a| + |b|` suffices). -/
def lcsLenF : Nat → List Char → List Char → Nat
  | 0, _, _ => 0
  | _ + 1, [], _ => 0
  | _ + 1, _ :: _, [] => 0
  | f + 1, a :: as, b :: bs =>
    if a = b then 1 + lcsLenF f as bs
    else max (lcsLenF f (a :: as) bs) (lcsLenF f as (b :: bs))

/-- Longest common subsequence length. -/
def lcsLen (a b : List Char) : Nat := lcsLenF (a.length + b.length) a b

/-- `rapidfuzz.fuzz.ratio`: normalized indel similarity on a 0-100 scale,
`100 * (1 - indel_distance / (|a| + |b|))` with
`indel_distance = |a| + |b| - 2 * lcs`, i.e. `200 * lcs / (|a| + |b|)`.
(Stated with `mkRat`, which the kernel can evaluate, unlike `Rat.div`.) -/
def fuzzScore (a b : List Char) : ℚ :=
  if a.length + b.length = 0 then 100
  else mkRat (200 * (lcsLen a b : Int)) (a.length + b.length)

/-- Fold keeping the first-encountered maximal-score choice (strict improvement
only), starting from incumbent `b`. -/
def bestFoldAux (w : List Char) : List (List Char) → (List Char × ℚ) → List Char × ℚ
  | [], b => b
  | c :: cs, b =>
    bestFoldAux w cs (if b.2 < fuzzScore w c then (c, fuzzScore w c) else b)

/-- Best (first maximal) vocabulary match with its score, no cutoff. -/
def bestVocabMatch (w : List Char) : List (List Char) → Option (List Char × ℚ)
  | [] => none
  | c :: cs => some (bestFoldAux w cs (c, fuzzScore w c))

/-- `rapidfuzz.process.extractOne(word, choices, scorer=fuzz.ratio,
score_cutoff=cutoff)`: first maximal match, `none` when every score is below
the cutoff; ties keep the earlier choice. -/
def extractOne (w : List Char) (cutoff : ℚ) : List (List Char) → Option (List Char × ℚ)
  | [] => none
  | c :: cs =>
    if cutoff ≤ fuzzScore w c then some (bestFoldAux w cs (c, fuzzScore w c))
    else extractOne w cutoff cs

/-- `PrescriptionErrorCorrector._fuzzy_match_drug` (threshold 75). -/
def fuzzyMatchDrug (vocab : List (List Char)) (w : List Char) :
    Option (List Char × ℚ) :=
  if vocab.isEmpty then none else extractOne w 75 vocab

/-- Python `w.isalpha()` (ASCII): nonempty and all letters. -/
def pyIsAlphaStr (w : List Char) : Bool := !w.isEmpty && w.all isAsciiLetter

/-- Python `w[0].isupper()` on a possibly-empty word (`false` on empty). -/
def headIsUpper (w : List Char) : Bool :=
  match w with
  | [] => false
  | c :: _ => c.isUpper

/-- Per-token body of the `_correct_drug_names` loop: short or numeric tokens
pass through; a capitalized alphabetic token is replaced by its fuzzy match
exactly when the match score exceeds 85. -/
def correctWord (vocab : List (List Char)) (w : List Char) : List Char × Nat :=
  if w.length < 4 || pyIsDigitStr w then (w, 0)
  else if headIsUpper w && pyIsAlphaStr w then
    match fuzzyMatchDrug vocab w with
    | some (m, score) => if 85 < score then (m, 1) else (w, 0)
    | none => (w, 0)
  else (w, 0)

/-- `PrescriptionErrorCorrector._correct_drug_names`: no-op without a
vocabulary, otherwise rewrites each whitespace token and re-joins with single
spaces, counting replacements. -/
def correctDrugNames (vocab : List (List Char)) (text : List Char) : List Char × Nat :=
  if vocab.isEmpty then (text, 0)
  else
    let rs := (pySplit text).map (correctWord vocab)
    (List.intercalate [' '] (rs.map Prod.fst), (rs.map Prod.snd).sum)

/-!  Rational arithmetic.  The `Rat.add`/`Rat.sub`/`Rat.mul`/`Rat.inv`
operations behind `+`, `-`, `*`, `/` on `ℚ` are `@[irreducible]`, so terms
built from them cannot be evaluated by `decide`/`rfl`.  The embedding
therefore computes with the kernel-reducible `mkRat`/`Rat.divInt` versions
below; `qAdd_eq`, `qSub_eq` and `qDiv_eq` (proved later) identify them with
the ordinary field operations. -/

/-- Addition on `ℚ` through `mkRat` (kernel-reducible; equal to `a + b`). -/
def qAdd (a b : ℚ) : ℚ := mkRat (a.num * b.den + b.num * a.den) (a.den * b.den)

/-- Subtraction on `ℚ` through `mkRat` (kernel-reducible; equal to `a - b`). -/
def qSub (a b : ℚ) : ℚ := mkRat (a.num * b.den - b.num * a.den) (a.den * b.den)

/-- Division on `ℚ` through `Rat.divInt` (kernel-reducible; equal to `a / b`). -/
def qDiv (a b : ℚ) : ℚ := Rat.divInt (a.num * b.den) (a.den * b.num)

/-- Python two-argument `max(a, b)` on rationals. -/
def pyMaxQ (a b : ℚ) : ℚ := if a < b then b else a

/-- `PrescriptionErrorCorrector.correct_text`: the three correction stages in
order, then the confidence `max(0.5, 1 - corrections/totalWords)`, or the
fixed `0.8` when the input has no whitespace-separated words. -/
def correctText (vocab : List (List Char)) (text : List Char) : List Char × ℚ :=
  let totalWords := (pySplit text).length
  let s1 := correctOcrPatterns text
  let s2 := correctDosageFormat s1.1
  let s3 := correctDrugNames vocab s2.1
  let corrections := s1.2 + s2.2 + s3.2
  let confidence : ℚ :=
    if 0 < totalWords then pyMaxQ (mkRat 1 2) (qSub 1 (qDiv (corrections : ℚ) (totalWords : ℚ)))
    else mkRat 4 5
  (s3.1, confidence)

/-! ## `PrescriptionErrorCorrector.validate_dosage`
(`error_correction.py` lines 228-258): `re.search` for
`(\d+(?:\.\d+)?)\s*([a-zA-Z]+)`, then unit normalization. -/

/-- The optional `(?:\.\d+)?` decimal part: returns (decimal-part, rest). -/
def splitDecimal (r : List Char) : List Char × List Char :=
  match r with
  | '.' :: t =>
    if (t.takeWhile Char.isDigit).isEmpty then ([], '.' :: t)
    else ('.' :: t.takeWhile Char.isDigit, t.dropWhile Char.isDigit)
  | _ => ([], r)

/-- Match `(\d+(?:\.\d+)?)\s*([a-zA-Z]+)` anchored at the current position,
returning the two captured groups (amount, unit).  For this pattern greedy
matching without backtracking is exact: shrinking any greedy run exposes a
character the next pattern element rejects. -/
def numUnitMatchAt (s : List Char) : Option (List Char × List Char) :=
  let d := s.takeWhile Char.isDigit
  if d.isEmpty then none else
  let p := splitDecimal (s.dropWhile Char.isDigit)
  let r3 := p.2.dropWhile isPySpace
  let u := r3.takeWhile isAsciiLetter
  if u.isEmpty then none else some (d ++ p.1, u)

/-- `re.search`: try the anchored match at each position, left to right. -/
def searchNumUnit : List Char → Option (List Char × List Char)
  | [] => none
  | c :: cs =>
    match numUnitMatchAt (c :: cs) with
    | some r => some r
    | none => searchNumUnit cs

/-- The `unit_mapping` synonym table. -/
def unitMapping : List (List Char × List Char) :=
  [("mg".data, "mg".data), ("gm".data, "g".data), ("gram".data, "g".data),
   ("mcg".data, "mcg".data), ("microgram".data, "mcg".data),
   ("ml".data, "ml".data), ("iu".data, "IU".data)]

/-- `unit_mapping.get(unit.lower(), unit)`. -/
def normalizeUnit (u : List Char) : List Char :=
  match unitMapping.find? (fun p => p.1 = pyLower u) with
  | some p => p.2
  | none => u

/-- `PrescriptionErrorCorrector.validate_dosage`: `(is_valid, corrected)`.
On a match the corrected value is `f"{amount}{normalized_unit}"`; otherwise
the input is returned unchanged with `is_valid = False`. -/
def validateDosage (dosage : List Char) : Bool × List Char :=
  match searchNumUnit dosage with
  | none => (false, dosage)
  | some (amt, unit) => (true, amt ++ normalizeUnit unit)

/-- Spec-level reading of "the string contains a `<number><unit>` pattern":
some position decomposes into digits, an optional decimal part, spaces, and
letters.  This is the specification-side definition that
`validate_dosage`'s regex search is compared against. -/
def IsNumUnitAt (s : List Char) : Prop :=
  ∃ d dec sp u rest, s = d ++ dec ++ sp ++ u ++ rest ∧
    d ≠ [] ∧ (∀ c ∈ d, c.isDigit = true) ∧
    (dec = [] ∨ ∃ dd, dec = '.' :: dd ∧ dd ≠ [] ∧ ∀ c ∈ dd, c.isDigit = true) ∧
    (∀ c ∈ sp, isPySpace c = true) ∧
    u ≠ [] ∧ (∀ c ∈ u, isAsciiLetter c = true)

/-- Spec-level "the dosage string contains a `<number><unit>` pattern". -/
def HasNumUnit (s : List Char) : Prop := ∃ p, IsNumUnitAt (s.drop p)

/-! ## `PrescriptionErrorCorrector.validate_frequency`
(`error_correction.py` lines 260-282). -/

/-- Case-insensitive `re.search(r'\bPAT\b', s)` for a fixed pattern that
starts and ends with word characters, scanning with boundary checks. -/
def containsWordCIAux (pat : List Char) : Option Char → List Char → Bool
  | _, [] => pat.isEmpty
  | prev, c :: cs =>
    (!isWordCharO prev && listStartsWith pat (pyLower ((c :: cs).take pat.length)) &&
      !(match (c :: cs).drop pat.length with | [] => false | x :: _ => isWordChar x))
    || containsWordCIAux pat (some c) cs

/-- Does `\bpat\b` (case-insensitive) occur anywhere in `s`? -/
def containsWordCI (pat : List Char) (s : List Char) : Bool :=
  containsWordCIAux pat none s

/-- The `freq_patterns` table, in source (insertion) order. -/
def freqPatterns : List (List Char × List Char) :=
  [("1-0-1".data, "1-0-1 (twice daily)".data),
   ("1-1-1".data, "1-1-1 (three times daily)".data),
   ("0-0-1".data, "0-0-1 (once at night)".data),
   ("OD".data, "Once Daily".data),
   ("BD".data, "Twice Daily".data),
   ("TDS".data, "Three Times Daily".data),
   ("QID".data, "Four Times Daily".data)]

/-- `PrescriptionErrorCorrector.validate_frequency`: first matching canonical
pattern wins; anything else is accepted unchanged. -/
def validateFrequency (frequency : List Char) : Bool × List Char :=
  match freqPatterns.find? (fun p => containsWordCI (pyLower p.1) frequency) with
  | some p => (true, p.2)
  | none => (true, frequency)

/-! ## `PrescriptionErrorCorrector.correct_drug_name`
(`error_correction.py` lines 205-226): `rapidfuzz.process.extract` with
`limit=top_n`, i.e. all scored choices sorted by descending score (stable),
truncated. -/

/-- Stable descending insertion (a later element goes after earlier
equal-scored ones). -/
def insertDesc (x : List Char × ℚ) : List (List Char × ℚ) → List (List Char × ℚ)
  | [] => [x]
  | y :: ys => if y.2 < x.2 then x :: y :: ys else y :: insertDesc x ys

/-- `process.extract(word, choices, scorer=fuzz.ratio, limit=topN)`. -/
def extractTop (w : List Char) (choices : List (List Char)) (topN : Nat) :
    List (List Char × ℚ) :=
  ((choices.map (fun c => (c, fuzzScore w c))).foldl (fun acc z => insertDesc z acc) []).take topN

/-- `PrescriptionErrorCorrector.correct_drug_name`. -/
def correctDrugName (vocab : List (List Char)) (drugName : List Char) (topN : Nat) :
    List (List Char × ℚ) :=
  if vocab.isEmpty then [] else extractTop drugName vocab topN

/-! ## `MedicalNER` (`medical_ner.py`): section isolation and drug-name
extraction.  `Entity` keeps the fields the claims are about. -/

/-- An extracted entity: value and confidence. -/
structure Entity where
  value : List Char
  confidence : ℚ
deriving DecidableEq, Repr

/-- `medication_markers` (`medical_ner.py` line 167). -/
def medicationMarkers : List (List Char) :=
  ["advice".data, "rx".data, "prescription".data, "medicine".data,
   "medication".data, "treatment".data]

/-- `skip_keywords` (`medical_ner.py` lines 170-173). -/
def skipKeywords : List (List Char) :=
  ["mbbs".data, "md".data, "doctor".data, "dr.".data, "clinic".data,
   "hospital".data, "phone".data, "ph:".data, "reg".data, "registration".data,
   "college".data, "patient".data, "name:".data, "age:".data, "gender:".data,
   "weight:".data, "date:".data, "clinical".data, "description:".data,
   "diagnosis:".data]

/-- `medicine_prefixes` of the section fallback (`medical_ner.py` line 198). -/
def medicineFormsShort : List (List Char) :=
  ["syp".data, "tab".data, "cap".data, "inj".data, "oint".data, "drops".data,
   "mg".data, "ml".data]

/-- The main loop of `_extract_medication_section`: carry the
`in_medication_section` flag across lines, collecting medication lines. -/
def medSectionFold : List (List Char) → Bool → List (List Char)
  | [], _ => []
  | line :: rest, inSec =>
    let ll := pyStrip (pyLower line)
    if ll.isEmpty then medSectionFold rest inSec
    else if medicationMarkers.any (fun m => containsSub m ll) then medSectionFold rest true
    else if skipKeywords.any (fun k => containsSub k ll) then medSectionFold rest inSec
    else if inSec then line :: medSectionFold rest inSec
    else medSectionFold rest inSec

/-- The no-marker fallback of `_extract_medication_section`: keep non-header
lines mentioning a medicine form (note: `line.lower()` without `strip`). -/
def medFallbackLines (lines : List (List Char)) : List (List Char) :=
  lines.filter (fun line =>
    let ll := pyLower line
    !(skipKeywords.any (fun k => containsSub k ll)) &&
      medicineFormsShort.any (fun p => containsSub p ll))

/-- `MedicalNER._extract_medication_section` (`medical_ner.py` lines 157-211). -/
def extractMedicationSection (text : List Char) : List Char :=
  let lines := splitOnNewline text
  let medLines := medSectionFold lines false
  let medLines2 := if medLines.isEmpty then medFallbackLines lines else medLines
  let medText := List.intercalate ['\n'] medLines2
  if medText.isEmpty then text else medText

/-- The alternation of medicine-form words in the primary drug pattern
(`medical_ner.py` line 325), in source order. -/
def medicineFormWords : List (List Char) :=
  ["syp".data, "tab".data, "cap".data, "inj".data, "oint".data, "drops".data,
   "sachet".data, "powder".data, "cream".data, "gel".data, "lotion".data,
   "spray".data]

/-- Character class `[A-Za-z\-]` (the `[A-Z]` of the source pattern also
matches lowercase because of `re.IGNORECASE`). -/
def isLetterOrHyphen (c : Char) : Bool := isAsciiLetter c || c = '-'

/-- The primary medicine pattern of `_extract_drug_names`:
`\b(syp|tab|...)\s+([A-Z][A-Za-z\-]+(?:\s+[A-Z][A-Za-z\-]+)?)` with
`re.IGNORECASE`; returns the second captured group.  No two alternation
words match at the same position (none is a prefix of another), and greedy
matching is exact for this pattern. -/
def matchMedicine (prev : Option Char) (s : List Char) : Option (List Char × Nat) :=
  if isWordCharO prev then none else
  match medicineFormWords.findSome?
      (fun a => if pyLower (s.take a.length) = a then some a.length else none) with
  | none => none
  | some plen =>
    let r1 := s.drop plen
    let sp := r1.takeWhile isPySpace
    let r2 := r1.dropWhile isPySpace
    if sp.isEmpty then none else
    match r2 with
    | [] => none
    | c :: cs =>
      if isAsciiLetter c then
        let w1 := cs.takeWhile isLetterOrHyphen
        let r3 := cs.dropWhile isLetterOrHyphen
        if w1.isEmpty then none else
        let base := c :: w1
        let sp2 := r3.takeWhile isPySpace
        let r4 := r3.dropWhile isPySpace
        let ext : Option (List Char) :=
          if sp2.isEmpty then none else
          match r4 with
          | [] => none
          | d :: ds =>
            if isAsciiLetter d then
              let w2 := ds.takeWhile isLetterOrHyphen
              if w2.isEmpty then none else some (sp2 ++ d :: w2)
            else none
        match ext with
        | some e => some (base ++ e, plen + sp.length + base.length + e.length)
        | none => some (base, plen + sp.length + base.length)
      else none

/-- The connective-word stop list of the primary pattern
(`medical_ner.py` line 334). -/
def drugStopWords : List (List Char) :=
  ["and".data, "the".data, "for".data, "with".data, "after".data, "before".data]

/-- `common_words` of the capitalized-word fallback
(`medical_ner.py` lines 351-354). -/
def commonWords : List (List Char) :=
  ["Patient".data, "Doctor".data, "Name".data, "Date".data, "Age".data,
   "Address".data, "Phone".data, "Prescription".data, "Rx".data, "Dr".data,
   "Mr".data, "Mrs".data, "Ms".data, "The".data, "For".data, "With".data,
   "Advice".data, "Clinical".data, "Description".data, "Weight".data,
   "Gender".data, "Reg".data, "College".data, "Hospital".data, "Clinic".data,
   "Medical".data, "Health".data]

/-- `[A-Z][a-z]+` anchored at the current position: (word, rest). -/
def matchCapWord (s : List Char) : Option (List Char × List Char) :=
  match s with
  | [] => none
  | c :: cs =>
    if c.isUpper then
      let w := cs.takeWhile Char.isLower
      if w.isEmpty then none else some (c :: w, cs.dropWhile Char.isLower)
    else none

/-- Word-boundary check at the start of the remaining text. -/
def boundaryOK : List Char → Bool
  | [] => true
  | c :: _ => !isWordChar c

/-- One `(?:\s+[A-Z][a-z]+)` repetition: (consumed text, rest). -/
def matchCapExt (r : List Char) : Option (List Char × List Char) :=
  let sp := r.takeWhile isPySpace
  let r2 := r.dropWhile isPySpace
  if sp.isEmpty then none else
  match matchCapWord r2 with
  | some (w, r3) => some (sp ++ w, r3)
  | none => none

/-- `drug_pattern` = `\b([A-Z][a-z]+(?:\s+[A-Z][a-z]+){0,2})\b`
(`medical_ner.py` lines 56-58): greedy repetition count 2, then 1, then 0,
backtracking only over the repetition count (shrinking the character runs
never satisfies the trailing `\b`). -/
def matchCapSeq (prev : Option Char) (s : List Char) : Option (List Char × Nat) :=
  if isWordCharO prev then none else
  match matchCapWord s with
  | none => none
  | some (w0, r0) =>
    match matchCapExt r0 with
    | some (e1, r1) =>
      match matchCapExt r1 with
      | some (e2, r2) =>
        if boundaryOK r2 then some (w0 ++ e1 ++ e2, w0.length + e1.length + e2.length)
        else if boundaryOK r1 then some (w0 ++ e1, w0.length + e1.length)
        else if boundaryOK r0 then some (w0, w0.length)
        else none
      | none =>
        if boundaryOK r1 then some (w0 ++ e1, w0.length + e1.length)
        else if boundaryOK r0 then some (w0, w0.length)
        else none
    | none => if boundaryOK r0 then some (w0, w0.length) else none

/-- `MedicalNER._extract_drug_names` (`medical_ner.py` lines 315-366):
prefix-pattern matches at confidence 0.9, else the capitalized-word fallback
at confidence 0.6. -/
def extractDrugNames (text : List Char) : List Entity :=
  let prim := (findAll matchMedicine text).filterMap (fun g =>
    let dn := pyStrip g
    if drugStopWords.contains (pyLower dn) then none
    else some ⟨dn, mkRat 9 10⟩)
  if !prim.isEmpty then prim
  else
    (findAll matchCapSeq text).filterMap (fun d =>
      if !(commonWords.contains d) && 3 < d.length then some ⟨d, mkRat 3 5⟩
      else none)

/-- The drug component of `MedicalNER.extract_entities`
(`medical_ner.py` line 141): drug names are extracted from the isolated
medication section. -/
def extractDrugs (text : List Char) : List Entity :=
  extractDrugNames (extractMedicationSection text)

/-! ## `PrescriptionOCR` (`ocr_engine.py`): lazy engine initialization,
single-engine extraction, ensemble mode.

The two concrete backends are external collaborators (EasyOCR / Tesseract);
an `OCREnv` records whether each backend's initialization succeeds and what
an invocation of it returns (`Except.error` models a raised exception).
`OCRState` models the mutable `self.engines` dict plus the two
`_initialized` flags: `none` = key absent, `some true` = working engine
object stored, `some false` = `None` stored after a failed initialization. -/

/-- Outcome of one backend invocation. -/
structure OcrOut where
  text : List Char
  confidence : ℚ
  engineUsed : List Char
deriving DecidableEq, Repr

/-- External behaviour of the two recognition backends. -/
structure OCREnv where
  easyocrAvailable : Bool
  tesseractAvailable : Bool
  easyocrRun : Except (List Char) OcrOut
  tesseractRun : Except (List Char) OcrOut

/-- The mutable state of a `PrescriptionOCR` object. -/
structure OCRState where
  easyocrEngine : Option Bool := none
  tesseractEngine : Option Bool := none
  easyocrInitialized : Bool := false
  tesseractInitialized : Bool := false
deriving DecidableEq, Repr

/-- `PrescriptionOCR.__init__`: `self.engines = {}`, both flags `False`. -/
def freshOCRState : OCRState := {}

/-- `PrescriptionOCR._initialize_engines`: initialize each not-yet-initialized
backend; on failure the engines entry becomes `None` and the flag stays
`False` (so the next call retries). -/
def initializeEngines (env : OCREnv) (st : OCRState) : OCRState :=
  let st1 :=
    if !st.easyocrInitialized then
      if env.easyocrAvailable then
        { st with easyocrEngine := some true, easyocrInitialized := true }
      else { st with easyocrEngine := some false }
    else st
  if !st1.tesseractInitialized then
    if env.tesseractAvailable then
      { st1 with tesseractEngine := some true, tesseractInitialized := true }
    else { st1 with tesseractEngine := some false }
  else st1

/-- Python truthiness of an `engines` entry (`self.engines.get(name)`). -/
def engineTruthy : Option Bool → Bool
  | some true => true
  | _ => false

/-- `PrescriptionOCR.extract_text`: initialize lazily, resolve `auto`, then
dispatch; a missing engine raises (modelled as `Except.error`). -/
def extractText (env : OCREnv) (st : OCRState) (engine : List Char) :
    Except (List Char) OcrOut × OCRState :=
  let st := initializeEngines env st
  let resolved : Option (List Char) :=
    if engine = "auto".data then
      if engineTruthy st.easyocrEngine then some ("easyocr".data)
      else if engineTruthy st.tesseractEngine then some ("tesseract".data)
      else none
    else some engine
  match resolved with
  | none =>
    (.error ("No OCR engine available. Please wait for models to download or check installation.".data), st)
  | some e =>
    if e = "easyocr".data then
      (if engineTruthy st.easyocrEngine then env.easyocrRun
       else .error ("EasyOCR not available".data), st)
    else if e = "tesseract".data then
      (if engineTruthy st.tesseractEngine then env.tesseractRun
       else .error ("Tesseract not available".data), st)
    else (.error ("Unknown engine: ".data ++ e), st)

/-- Python `max(results, key=lambda x: x['confidence'])`: first maximum. -/
def maxByConfidence (r0 : OcrOut) (rs : List OcrOut) : OcrOut :=
  rs.foldl (fun b x => if b.confidence < x.confidence then x else b) r0

/-- `PrescriptionOCR.extract_with_ensemble` (`ocr_engine.py` lines 193-212):
for each of `['easyocr', 'tesseract']`, if `self.engines.get(name)` is truthy
invoke it (exceptions excluded, not fatal); fail with the all-engines-failed
error when no result was collected; otherwise return the highest-confidence
result (tagged `ensemble`) together with all individual results.
Note the guard reads `self.engines` as it is at loop time — nothing
initializes the engines first. -/
def extractWithEnsemble (env : OCREnv) (st : OCRState) :
    Except (List Char) (OcrOut × List OcrOut) × OCRState :=
  let step1 : List OcrOut × OCRState :=
    if engineTruthy st.easyocrEngine then
      match extractText env st ("easyocr".data) with
      | (.ok r, st1) => ([r], st1)
      | (.error _, st1) => ([], st1)
    else ([], st)
  let step2 : List OcrOut × OCRState :=
    if engineTruthy step1.2.tesseractEngine then
      match extractText env step1.2 ("tesseract".data) with
      | (.ok r, st2) => (step1.1 ++ [r], st2)
      | (.error _, st2) => (step1.1, st2)
    else step1
  match step2 with
  | ([], stF) => (.error ("All OCR engines failed".data), stF)
  | (r0 :: rs, stF) =>
    (.ok ({ maxByConfidence r0 rs with engineUsed := "ensemble".data }, r0 :: rs), stF)

/-! ## `ImagePreprocessor.preprocess` (`preprocessing.py` lines 20-51):
`cv2.imread` returning `None` raises
`ValueError(f"Could not read image: {image_path}")`, which propagates. -/

/-- Decode step of the preprocessing stage: the geometric/photometric chain
after a successful decode is irrelevant to the claims, the decode failure
message is the observable modelled here. -/
def preprocessImage (decoded : Bool) (path : List Char) : Except (List Char) Unit :=
  if decoded then .ok () else .error ("Could not read image: ".data ++ path)

/-! ## `PrescriptionOCRPipeline.process_prescription` (`pipeline.py`).

External stage behaviours (image decode, OCR engine outcome, the Gemini
fallback extractor, and the full NER entity set) are supplied by a
`PipelineEnv`; the corrector, arbitration rule, structuring, validation and
confidence aggregation are the embedded functions above.  An
`Except.error` models an exception propagating to the outer
`try`/`except`, which produces the `status='failed'` envelope. -/

/-- A prescription item (the dict built by `structure_prescription` or
returned by the Gemini fallback).  `none` models an absent key. -/
structure Item where
  drug_name : Option (List Char) := none
  dosage : Option (List Char) := none
  frequency : Option (List Char) := none
  duration : Option (List Char) := none
  route : Option (List Char) := none
  quantity : Option (List Char) := none
  instructions : List (List Char) := []
  confidence : Option ℚ := none
  dosage_valid : Option Bool := none
  frequency_valid : Option Bool := none
  drug_suggestions : Option (List (List Char × ℚ)) := none
deriving DecidableEq, Repr

/-- The entity lists produced by `MedicalNER.extract_entities` that the
pipeline consumes. -/
structure EntitySet where
  drugs : List Entity := []
  dosages : List Entity := []
  frequencies : List Entity := []
  durations : List Entity := []
  routes : List Entity := []
  quantities : List Entity := []
  instructions : List Entity := []
deriving DecidableEq, Repr

/-- `MedicalNER.structure_prescription` (`medical_ner.py` lines 420-465):
one item per drug entity, the remaining kinds attached on a
first-available-value basis. -/
def structurePrescription (es : EntitySet) : List Item :=
  es.drugs.map (fun d =>
    { drug_name := some d.value
      dosage := es.dosages.head?.map Entity.value
      frequency := es.frequencies.head?.map Entity.value
      duration := es.durations.head?.map Entity.value
      route := es.routes.head?.map Entity.value
      quantity := es.quantities.head?.map Entity.value
      instructions := es.instructions.map Entity.value
      confidence := some d.confidence })

/-- Python truthiness of an optional string field (`item.get(key)`):
absent or empty is falsy. -/
def isTruthyOpt : Option (List Char) → Bool
  | none => false
  | some s => !s.isEmpty

/-- The validation loop body of `process_prescription`
(`pipeline.py` lines 156-172). -/
def validateItem (vocab : List (List Char)) (it : Item) : Item :=
  let it1 :=
    if isTruthyOpt it.dosage then
      let r := validateDosage (it.dosage.getD [])
      { it with dosage := some r.2, dosage_valid := some r.1 }
    else it
  let it2 :=
    if isTruthyOpt it1.frequency then
      let r := validateFrequency (it1.frequency.getD [])
      { it1 with frequency := some r.2, frequency_valid := some r.1 }
    else it1
  if isTruthyOpt it2.drug_name && decide (it2.confidence.getD 1 < mkRat 4 5) then
    let sugg := (correctDrugName vocab (it2.drug_name.getD []) 3).map (fun p => (p.1, qDiv p.2 100))
    { it2 with drug_suggestions := some sugg }
  else it2

/-- `item.get('confidence', 0.5)`. -/
def itemConfOrHalf (it : Item) : ℚ := it.confidence.getD (mkRat 1 2)

/-- `sum(item.get('confidence', 0.5) for item in items) / max(len(items), 1)`. -/
def meanItemConfidence (items : List Item) : ℚ :=
  qDiv ((items.map itemConfOrHalf).foldl qAdd 0) ((max items.length 1 : ℕ) : ℚ)

/-- `pipeline.py` lines 174-180: the overall confidence is the mean of the
three-element list `[ocr_confidence, correction_confidence, mean item
confidence]`. -/
def overallConfidenceOf (ocrConf corrConf : ℚ) (items : List Item) : ℚ :=
  qDiv (qAdd (qAdd ocrConf corrConf) (meanItemConfidence items)) 3

/-- The escalation condition of `pipeline.py` lines 117-120:
`use_gemini = ocr_confidence < 0.6 or len(drugs) == 0 or len(drugs) > 10`. -/
def escalate (ocrConf : ℚ) (drugCount : ℕ) : Bool :=
  decide (ocrConf < mkRat 3 5) || drugCount == 0 || decide (10 < drugCount)

/-- Result of `GeminiOCRCorrector.correct_and_extract` (external collaborator):
`success` is `status == 'success'`. -/
structure GeminiOut where
  success : Bool
  medicines : List Item
deriving Repr

/-- `if 'confidence' not in item: item['confidence'] = 0.85`. -/
def setDefaultGeminiConfidence (it : Item) : Item :=
  match it.confidence with
  | some _ => it
  | none => { it with confidence := some (mkRat 17 20) }

/-- External stage behaviours consumed by one pipeline run. -/
structure PipelineEnv where
  vocab : List (List Char)
  decode : Except (List Char) Unit
  ocr : Except (List Char) (List Char × ℚ)
  ner : List Char → EntitySet
  geminiConfigured : Bool
  gemini : List Char → Except (List Char) GeminiOut

/-- The observable parts of the result envelope built by
`process_prescription`.  `items = none` models the absence of the
`prescription_items` key (the failure paths never set it). -/
structure PipelineResult where
  status : List Char
  error : Option (List Char) := none
  correctedText : Option (List Char) := none
  geminiStage : Option (List Char) := none
  items : Option (List Item) := none
  overallConfidence : Option ℚ := none
deriving Repr

/-- `PrescriptionOCRPipeline.process_prescription` (`pipeline.py` lines
44-205): preprocessing, OCR, correction, NER, confidence-gated Gemini
fallback, structuring, validation, overall confidence; any exception from
preprocessing/OCR yields the `status='failed'` envelope with the error
message and no `prescription_items`. -/
def processPrescription (env : PipelineEnv) : PipelineResult :=
  match env.decode with
  | .error e => { status := "failed".data, error := some e }
  | .ok _ =>
    match env.ocr with
    | .error e => { status := "failed".data, error := some e }
    | .ok (rawText, ocrConf) =>
      let corr := correctText env.vocab rawText
      let entities := env.ner corr.1
      let useGemini := escalate ocrConf entities.drugs.length
      let stageAndItems : List Char × List Item :=
        if useGemini && env.geminiConfigured then
          match env.gemini rawText with
          | .ok g =>
            if g.success && !g.medicines.isEmpty then
              ("used".data, g.medicines.map setDefaultGeminiConfidence)
            else ("failed".data, structurePrescription entities)
          | .error _ => ("error".data, structurePrescription entities)
        else ("skipped".data, structurePrescription entities)
      let items := stageAndItems.2.map (validateItem env.vocab)
      { status := "completed".data
        correctedText := some corr.1
        geminiStage := some stageAndItems.1
        items := some items
        overallConfidence := some (overallConfidenceOf ocrConf corr.2 items) }

/-! ## Concrete environments used by counterexamples and witnesses -/

/-- Pipeline environment of a run with no drug entities and empty vocabulary:
reaches `status='completed'` with an empty item list. -/
def envNoDrugs : PipelineEnv :=
  { vocab := []
    decode := .ok ()
    ocr := .ok ([], 1)
    ner := fun _ => {}
    geminiConfigured := false
    gemini := fun _ => .error [] }

/-- Pipeline environment of a run whose recognition confidence is 0.55 and
whose NER stage finds two drug entities, with a configured (but failing)
fallback extractor. -/
def envTwoDrugs : PipelineEnv :=
  { vocab := []
    decode := .ok ()
    ocr := .ok ([], mkRat 11 20)
    ner := fun _ => { drugs := [⟨"A".data, 1⟩, ⟨"B".data, 1⟩] }
    geminiConfigured := true
    gemini := fun _ => .error [] }

/-- Pipeline environment of a run whose input image fails to decode. -/
def envBadImage : PipelineEnv :=
  { vocab := []
    decode := preprocessImage false ("scan.png".data)
    ocr := .ok ([], 1)
    ner := fun _ => {}
    geminiConfigured := false
    gemini := fun _ => .error [] }

/-- The section-isolation example input. -/
def sectionExampleInput : List Char :=
  "Dr. Jane Doe, MBBS\nAdvice:\nTab Paracetamol 500mg 1-0-1 x5 days".data

/-! ## Bridge lemmas for the kernel-reducible rational operations -/

theorem qAdd_eq (a b : ℚ) : qAdd a b = a + b := by
  have ha : ((a.den : ℚ)) ≠ 0 := by positivity
  have hb : ((b.den : ℚ)) ≠ 0 := by positivity
  rw [qAdd, Rat.mkRat_eq_div]
  push_cast
  conv_rhs => rw [← Rat.num_div_den a, ← Rat.num_div_den b]
  rw [div_add_div _ _ ha hb]
  ring_nf

theorem qSub_eq (a b : ℚ) : qSub a b = a - b := by
  have ha : ((a.den : ℚ)) ≠ 0 := by positivity
  have hb : ((b.den : ℚ)) ≠ 0 := by positivity
  rw [qSub, Rat.mkRat_eq_div]
  push_cast
  conv_rhs => rw [← Rat.num_div_den a, ← Rat.num_div_den b]
  rw [div_sub_div _ _ ha hb]
  ring_nf

theorem qDiv_eq (a b : ℚ) : qDiv a b = a / b := by
  rcases eq_or_ne b 0 with hb | hb
  · subst hb; simp [qDiv]
  · have ha : ((a.den : ℚ)) ≠ 0 := by positivity
    have hbd : ((b.den : ℚ)) ≠ 0 := by positivity
    have hbn : ((b.num : ℚ)) ≠ 0 := by exact_mod_cast Rat.num_ne_zero.mpr hb
    rw [qDiv, Rat.divInt_eq_div]
    push_cast
    conv_rhs => rw [← Rat.num_div_den a, ← Rat.num_div_den b]
    field_simp

theorem foldl_qAdd_eq (l : List ℚ) : ∀ a : ℚ, l.foldl qAdd a = a + l.sum := by
  induction l with
  | nil => intro a; simp
  | cons c cs ih =>
    intro a
    simp only [List.foldl_cons, List.sum_cons, ih, qAdd_eq]
    ring

/-! ## C1 -/

/-- C1: at the arbitration stage, escalation to the fallback extractor is
decided by `recognition confidence < 0.6 OR drug count == 0 OR drug
count > 10`; confidence 0.55 with 2 drugs escalates, confidence 0.9 with 3
drugs does not; and on every completed-so-far run with a configured fallback
extractor, the pipeline takes the fallback branch exactly when this condition
holds for the recognition confidence and the extracted drug-entity count. -/
theorem escalation_rule :
    (∀ (conf : ℚ) (n : ℕ), escalate conf n = true ↔ (conf < mkRat 3 5 ∨ n = 0 ∨ 10 < n))
    ∧ escalate (mkRat 11 20) 2 = true
    ∧ escalate (mkRat 9 10) 3 = false
    ∧ (∀ (env : PipelineEnv) (raw : List Char) (conf : ℚ),
        env.decode = .ok () → env.ocr = .ok (raw, conf) → env.geminiConfigured = true →
        ((processPrescription env).geminiStage ≠ some ("skipped".data) ↔
          escalate conf ((env.ner (correctText env.vocab raw).1).drugs.length) = true)) := by
  refine ⟨?_, by decide, by decide, ?_⟩
  · intro conf n
    simp only [escalate, Bool.or_eq_true, decide_eq_true_eq, beq_iff_eq]
    exact or_assoc
  · intro env raw conf h1 h2 h3
    simp only [processPrescription, h1, h2, h3, Bool.and_true]
    cases hE : escalate conf ((env.ner (correctText env.vocab raw).1).drugs.length) with
    | true =>
      simp only [if_pos rfl]
      cases hG : env.gemini raw with
      | ok g =>
        cases hS : g.success && !g.medicines.isEmpty with
        | true => simp [hS]
        | false => simp [hS]
      | error e => simp
    | false => simp

/-- C1 witness: on the concrete environment `envTwoDrugs` (confidence 0.55,
two drug entities, fallback configured) the pipeline takes the fallback
branch. -/
theorem escalation_rule_witness :
    (processPrescription envTwoDrugs).geminiStage ≠ some ("skipped".data) :=
  (escalation_rule.2.2.2 envTwoDrugs [] (mkRat 11 20) rfl rfl rfl).mpr (by decide)

/-! ## C2 -/

/-- C2 counterexample: a completed run of the pipeline with zero prescription
items has overall confidence `(1 + 4/5 + 0)/3 = 3/5`, not the
`(1 + 4/5 + 1/2)/3 = 23/30` the claim's empty-list default of 0.5 demands. -/
theorem overall_confidence_empty_cex :
    (processPrescription envNoDrugs).status = "completed".data ∧
    (processPrescription envNoDrugs).items = some [] ∧
    (processPrescription envNoDrugs).overallConfidence = some (mkRat 3 5) ∧
    (1 + 4 / 5 + (1 / 2 : ℚ)) / 3 = mkRat 23 30 ∧
    mkRat 3 5 ≠ mkRat 23 30 := by
  refine ⟨by decide, by decide, by decide, ?_, by decide⟩
  rw [Rat.mkRat_eq_div]
  norm_num

/-- C2 amended: the overall confidence is the unweighted mean of recognition
confidence, correction confidence and `sum(item confidences, default 0.5
per item) / max(count, 1)`; with zero items the third summand is `0` (so the
overall confidence is `(recognition + correction)/3`), not `0.5`. -/
theorem overall_confidence_amended :
    (∀ o c : ℚ, overallConfidenceOf o c [] = (o + c) / 3)
    ∧ (∀ (o c : ℚ) (items : List Item), items ≠ [] →
        overallConfidenceOf o c items
          = (o + c + (items.map itemConfOrHalf).sum / items.length) / 3) := by
  constructor
  · intro o c
    simp [overallConfidenceOf, meanItemConfidence, qDiv_eq, qAdd_eq]
  · intro o c items h
    have hlen : max items.length 1 = items.length :=
      Nat.max_eq_left (Nat.one_le_iff_ne_zero.mpr (by simpa using h))
    simp only [overallConfidenceOf, meanItemConfidence, qDiv_eq, qAdd_eq,
      foldl_qAdd_eq, hlen, zero_add]

/-- C2 amended witness: evaluated at one default item (confidence key absent,
so the per-item default 0.5 applies). -/
theorem overall_confidence_amended_witness :
    ([({} : Item)] ≠ ([] : List Item)) ∧
    overallConfidenceOf 0 0 [({} : Item)]
      = (0 + 0 + (([({} : Item)].map itemConfOrHalf).sum) / (([({} : Item)] : List Item).length)) / 3 :=
  ⟨by decide, overall_confidence_amended.2 0 0 [({} : Item)] (by decide)⟩

/-! ## C3 -/

/-- C3: the character-confusion pass does NOT rewrite a standalone `O`, an
isolated `l` or `I`, an `S` before a digit, or an `O` after a digit (the
`ocr_patterns` table of `__init__` is never applied); it does repair
digit runs broken by `O` before `mg` and the `l-d-l` / `I-d-I` frequency
codes.  Each conjunct evaluates `_correct_ocr_patterns` on one input. -/
theorem confusion_table_not_applied :
    correctOcrPatterns ("O".data) = ("O".data, 0) ∧
    correctOcrPatterns ("l".data) = ("l".data, 0) ∧
    correctOcrPatterns ("I".data) = ("I".data, 0) ∧
    correctOcrPatterns ("S5".data) = ("S5".data, 0) ∧
    correctOcrPatterns ("2O".data) = ("2O".data, 0) ∧
    correctOcrPatterns ("5OOmg".data) = ("500mg".data, 2) ∧
    correctOcrPatterns ("l-0-l".data) = ("1-0-1".data, 2) ∧
    correctOcrPatterns ("I-2-I".data) = ("1-2-1".data, 2) := by decide

/-! ## C4 -/

/-- C4: on a freshly constructed recognizer (`engines = {}`, nothing
initialized), ensemble mode raises the all-engines-failed error for every
backend environment — including one where both backends are available —
because the loop guard reads the engines map without ever initializing it. -/
theorem ensemble_fresh_all_engines_failed :
    ∀ env : OCREnv,
      (extractWithEnsemble env freshOCRState).1 = .error ("All OCR engines failed".data) :=
  fun _ => rfl

/-! ## C5 -/

/-- C5: on the input with a `Dr. Jane Doe, MBBS` header line, an `Advice:`
marker line and the medication line `Tab Paracetamol 500mg 1-0-1 x5 days`,
drug-name extraction returns exactly one drug entity, valued `Paracetamol`
(at the prefix-match confidence 0.9), and neither `Jane` nor `Doe`. -/
theorem section_isolation_example :
    extractDrugs sectionExampleInput = [⟨"Paracetamol".data, mkRat 9 10⟩] ∧
    "Jane".data ∉ (extractDrugs sectionExampleInput).map Entity.value ∧
    "Doe".data ∉ (extractDrugs sectionExampleInput).map Entity.value := by decide

/-! ## C7 -/

/-- C7 counterexample: the corrector is not idempotent.  On `1O2O3` the first
run yields `102O3`; a second run changes the text again (to `10203`), and the
character-confusion pass reports 1 further correction on the second run. -/
theorem corrector_not_idempotent_cex :
    (correctText [] ((correctText [] ("1O2O3".data)).1)).1 ≠ (correctText [] ("1O2O3".data)).1 ∧
    (correctOcrPatterns ((correctOcrPatterns ("1O2O3".data)).1)).2 = 1 := by decide

/-- The first component of `_correct_ocr_patterns` is the five-pass rewrite. -/
theorem correctOcrPatterns_fst (t : List Char) : (correctOcrPatterns t).1 = ocrPassText t := rfl

/-- C7 amended: the character-confusion repair is not idempotent in general
(counterexample `1O2O3`); it is stable exactly on its fixed points: whenever
a run leaves the text unchanged, running it again returns the same text and
reports zero corrections. -/
theorem ocr_repair_stable_on_fixed_points :
    ∀ t : List Char, (correctOcrPatterns t).1 = t →
      correctOcrPatterns ((correctOcrPatterns t).1) = (t, 0) := by
  intro t h
  rw [correctOcrPatterns_fst] at h ⊢
  rw [h]
  simp [correctOcrPatterns, h]

/-- C7 amended witness: a text the pass leaves unchanged. -/
theorem ocr_repair_stable_on_fixed_points_witness :
    correctOcrPatterns ((correctOcrPatterns ("take 2 tablets".data)).1) = ("take 2 tablets".data, 0) :=
  ocr_repair_stable_on_fixed_points ("take 2 tablets".data) (by decide)

/-! ## C9 -/

/-- C9: whenever the image decode fails, the pipeline returns the failure
envelope: `status = 'failed'`, the explanatory decode error message, and no
prescription items. -/
theorem decode_failure_envelope :
    ∀ (env : PipelineEnv) (path : List Char),
      env.decode = preprocessImage false path →
      (processPrescription env).status = "failed".data ∧
      (processPrescription env).error = some ("Could not read image: ".data ++ path) ∧
      ((processPrescription env).items.getD []).length = 0 := by
  intro env path h
  have h2 : env.decode = .error ("Could not read image: ".data ++ path) := h
  simp [processPrescription, h2]

/-- C9 witness: the failure envelope on the concrete bad-image environment. -/
theorem decode_failure_envelope_witness :
    (processPrescription envBadImage).status = "failed".data ∧
    (processPrescription envBadImage).error = some ("Could not read image: ".data ++ "scan.png".data) ∧
    ((processPrescription envBadImage).items.getD []).length = 0 :=
  decode_failure_envelope envBadImage ("scan.png".data) rfl

/-! ## C10: zero-word texts -/

theorem space_cases {c : Char} (h : isPySpace c = true) :
    c = ' ' ∨ c = '\t' ∨ c = '\n' ∨ c = '\r' ∨ c = '\x0b' ∨ c = '\x0c' := by
  simp only [isPySpace, Bool.or_eq_true, decide_eq_true_eq] at h
  tauto

theorem matchDigitsOmg_space {c : Char} (cs : List Char) (h : isPySpace c = true) :
    matchDigitsOmg (c :: cs) = none := by
  rcases space_cases h with rfl | rfl | rfl | rfl | rfl | rfl <;> rfl

theorem matchDigitsODigits_space {c : Char} (cs : List Char) (h : isPySpace c = true) :
    matchDigitsODigits (c :: cs) = none := by
  rcases space_cases h with rfl | rfl | rfl | rfl | rfl | rfl <;> rfl

theorem matchLdl_space (prev : Option Char) {c : Char} (cs : List Char)
    (h : isPySpace c = true) : matchLdl prev (c :: cs) = none := by
  rcases space_cases h with rfl | rfl | rfl | rfl | rfl | rfl <;>
    (unfold matchLdl; split <;> rfl)

theorem matchIdI_space {c : Char} (cs : List Char) (h : isPySpace c = true) :
    matchIdI (c :: cs) = none := by
  rcases space_cases h with rfl | rfl | rfl | rfl | rfl | rfl <;> rfl

theorem matchSdays_space (prev : Option Char) {c : Char} (cs : List Char)
    (h : isPySpace c = true) : matchSdays prev (c :: cs) = none := by
  rcases space_cases h with rfl | rfl | rfl | rfl | rfl | rfl <;>
    (unfold matchSdays; split <;> rfl)

theorem matchDosageTriple_space {c : Char} (cs : List Char) (h : isPySpace c = true) :
    matchDosageTriple (c :: cs) = none := by
  rcases space_cases h with rfl | rfl | rfl | rfl | rfl | rfl <;> rfl

theorem reSubFuel_of_space (m : Option Char → List Char → Option (List Char × Nat))
    (hm : ∀ (prev : Option Char) (c : Char) (cs : List Char),
      isPySpace c = true → m prev (c :: cs) = none) :
    ∀ (fuel : Nat) (prev : Option Char) (s : List Char),
      (∀ c ∈ s, isPySpace c = true) → reSubFuel m fuel prev s = (s, 0) := by
  intro fuel
  induction fuel with
  | zero => intro prev s _; rfl
  | succ f ih =>
    intro prev s h
    cases s with
    | nil => rfl
    | cons c cs =>
      have hc : isPySpace c = true := h c (by simp)
      have hrest : ∀ x ∈ cs, isPySpace x = true := fun x hx => h x (by simp [hx])
      simp only [reSubFuel, hm prev c cs hc, ih (some c) cs hrest]

theorem reSub_of_space (m : Option Char → List Char → Option (List Char × Nat))
    (hm : ∀ (prev : Option Char) (c : Char) (cs : List Char),
      isPySpace c = true → m prev (c :: cs) = none)
    (s : List Char) (h : ∀ c ∈ s, isPySpace c = true) : reSub m s = (s, 0) :=
  reSubFuel_of_space m hm s.length none s h

theorem correctOcrPatterns_of_space (s : List Char) (h : ∀ c ∈ s, isPySpace c = true) :
    correctOcrPatterns s = (s, 0) := by
  have h1 := reSub_of_space (fun _ t => matchDigitsOmg t)
    (fun _ c cs hc => matchDigitsOmg_space cs hc) s h
  have h2 := reSub_of_space (fun _ t => matchDigitsODigits t)
    (fun _ c cs hc => matchDigitsODigits_space cs hc) s h
  have h3 := reSub_of_space matchLdl (fun prev c cs hc => matchLdl_space prev cs hc) s h
  have h4 := reSub_of_space (fun _ t => matchIdI t)
    (fun _ c cs hc => matchIdI_space cs hc) s h
  have h5 := reSub_of_space matchSdays (fun prev c cs hc => matchSdays_space prev cs hc) s h
  have hp : ocrPassText s = s := by
    simp only [ocrPassText, h1, h2, h3, h4, h5]
  simp [correctOcrPatterns, hp]

theorem correctDosageFormat_of_space (s : List Char) (h : ∀ c ∈ s, isPySpace c = true) :
    correctDosageFormat s = (s, 0) :=
  reSub_of_space (fun _ t => matchDosageTriple t)
    (fun _ _c cs hc => matchDosageTriple_space cs hc) s h

theorem pySplitAux_ne_nil : ∀ (s cur : List Char), cur ≠ [] → pySplitAux s cur ≠ [] := by
  intro s
  induction s with
  | nil =>
    intro cur h
    simp [pySplitAux, h]
  | cons c0 cs ih =>
    intro cur h
    simp only [pySplitAux]
    split
    · rw [if_neg (by simp [h])]
      simp
    · exact ih (cur ++ [c0]) (by simp)

theorem pySplit_nil_allSpace : ∀ s : List Char, pySplit s = [] → ∀ c ∈ s, isPySpace c = true := by
  intro s
  induction s with
  | nil => simp
  | cons c cs ih =>
    intro h x hx
    unfold pySplit pySplitAux at h
    cases hc : isPySpace c with
    | true =>
      rw [if_pos hc] at h
      simp only [List.isEmpty_nil, if_pos rfl] at h
      rcases List.mem_cons.mp hx with rfl | hxs
      · exact hc
      · exact ih h x hxs
    | false =>
      rw [if_neg (by simp [hc])] at h
      exact absurd h (pySplitAux_ne_nil cs ([] ++ [c]) (by simp))

/-- C10 counterexample: on the all-whitespace text `"   "` (zero words) with a
nonempty drug vocabulary, the corrector returns the empty string — not the
input text — together with confidence 0.8. -/
theorem zero_words_text_changed_cex :
    correctText ["Amoxicillin".data] ("   ".data) = ([], mkRat 4 5) ∧
    "   ".data ≠ ([] : List Char) := by decide

/-- C10 amended: on every text with zero whitespace-separated words the
corrector returns confidence exactly 0.8 (the `max(0.5, 1 - e)` model is not
used); the text itself is returned unchanged when the vocabulary is empty,
while with a nonempty vocabulary the drug-name pass re-joins the zero tokens
and returns the empty string. -/
theorem zero_words_confidence :
    ∀ text : List Char, pySplit text = [] →
      correctText [] text = (text, mkRat 4 5) ∧
      ∀ vocab : List (List Char), vocab ≠ [] → correctText vocab text = ([], mkRat 4 5) := by
  intro text h
  have hsp : ∀ c ∈ text, isPySpace c = true := pySplit_nil_allSpace text h
  have h1 : correctOcrPatterns text = (text, 0) := correctOcrPatterns_of_space text hsp
  have h2 : correctDosageFormat text = (text, 0) := correctDosageFormat_of_space text hsp
  constructor
  · simp [correctText, h, h1, h2, correctDrugNames]
  · intro vocab hv
    have hv2 : vocab.isEmpty = false := by
      cases vocab with
      | nil => exact absurd rfl hv
      | cons a as => rfl
    simp [correctText, h, h1, h2, correctDrugNames, hv2, List.intercalate]

/-- C10 amended witness: evaluated at the empty text. -/
theorem zero_words_confidence_witness :
    correctText [] ("".data) = ("".data, mkRat 4 5) ∧
    correctText ["Amoxicillin".data] ("".data) = ([], mkRat 4 5) :=
  ⟨(zero_words_confidence ("".data) (by decide)).1,
   (zero_words_confidence ("".data) (by decide)).2 ["Amoxicillin".data] (by decide)⟩

/-! ## C6: the drug-name repair threshold -/

theorem alpha_not_digit (c : Char) (h : isAsciiLetter c = true) : c.isDigit = false := by
  revert h
  simp only [isAsciiLetter, Char.isAlpha, Char.isUpper, Char.isLower, Char.isDigit]
  rcases c with ⟨⟨⟨n, hn⟩⟩, hv⟩
  simp [UInt32.le_def, BitVec.le_def]
  omega

theorem bestFoldAux_snd_le (w : List Char) :
    ∀ (l : List (List Char)) (b : List Char × ℚ), b.2 ≤ (bestFoldAux w l b).2 := by
  intro l
  induction l with
  | nil => intro b; exact le_refl _
  | cons c cs ih =>
    intro b
    simp only [bestFoldAux]
    rcases lt_or_le b.2 (fuzzScore w c) with h | h
    · rw [if_pos h]
      exact le_trans (le_of_lt h) (ih (c, fuzzScore w c))
    · rw [if_neg (not_lt.mpr h)]
      exact ih b

theorem bestVocabMatch_eq_none (w : List Char) (l : List (List Char)) :
    bestVocabMatch w l = none ↔ l = [] := by
  cases l <;> simp [bestVocabMatch]

theorem bestFoldAux_eq (w : List Char) :
    ∀ (l : List (List Char)) (b : List Char × ℚ),
      bestFoldAux w l b = (bestVocabMatch w l).elim b (fun r => if b.2 < r.2 then r else b) := by
  intro l
  induction l with
  | nil => intro b; simp [bestFoldAux, bestVocabMatch]
  | cons c cs ih =>
    intro b
    simp only [bestFoldAux, bestVocabMatch, Option.elim_some]
    rw [ih (if b.2 < fuzzScore w c then (c, fuzzScore w c) else b), ih (c, fuzzScore w c)]
    cases hcs : bestVocabMatch w cs with
    | none =>
      simp only [Option.elim_none]
    | some r =>
      obtain ⟨r1, r2⟩ := r
      simp only [Option.elim_some]
      rcases lt_or_le b.2 (fuzzScore w c) with hb | hb <;>
        rcases lt_or_le (fuzzScore w c) r2 with hs | hs
      · simp [hb, hs, lt_trans hb hs]
      · simp [hb, not_lt.mpr hs]
      · simp [not_lt.mpr hb, hs]
      · simp [not_lt.mpr hb, not_lt.mpr hs, not_lt.mpr (le_trans hs hb)]

theorem extractOne_of_best (w : List Char) (k : ℚ) :
    ∀ (l : List (List Char)) (m : List Char) (s : ℚ),
      bestVocabMatch w l = some (m, s) →
      extractOne w k l = if k ≤ s then some (m, s) else none := by
  intro l
  induction l with
  | nil => intro m s h; simp [bestVocabMatch] at h
  | cons c cs ih =>
    intro m s h
    have hb : bestFoldAux w cs (c, fuzzScore w c) = (m, s) := by
      simpa [bestVocabMatch] using h
    have hsle : fuzzScore w c ≤ s := by
      have h2 := bestFoldAux_snd_le w cs (c, fuzzScore w c)
      rw [hb] at h2
      simpa using h2
    simp only [extractOne]
    rcases le_or_lt k (fuzzScore w c) with hk | hk
    · rw [if_pos hk, hb, if_pos (le_trans hk hsle)]
    · rw [if_neg (not_le.mpr hk)]
      have he := bestFoldAux_eq w cs (c, fuzzScore w c)
      rw [hb] at he
      cases hcs : bestVocabMatch w cs with
      | none =>
        rw [hcs, Option.elim_none] at he
        obtain rfl : cs = [] := (bestVocabMatch_eq_none w cs).mp hcs
        have hs0 : s = fuzzScore w c := congrArg Prod.snd he
        rw [if_neg (not_le.mpr (by rw [hs0]; exact hk))]
        rfl
      | some r =>
        obtain ⟨r1, r2⟩ := r
        rw [hcs, Option.elim_some] at he
        rcases lt_or_le (fuzzScore w c) r2 with h2 | h2
        · have he2 : (m, s) = (r1, r2) := by
            rw [he, if_pos (show (c, fuzzScore w c).2 < (r1, r2).2 from h2)]
          rw [Prod.mk.injEq] at he2
          obtain ⟨rfl, rfl⟩ := he2
          exact ih _ _ hcs
        · have he2 : (m, s) = (c, fuzzScore w c) := by
            rw [he, if_neg (show ¬(c, fuzzScore w c).2 < (r1, r2).2 from not_lt.mpr h2)]
          have hs0 : s = fuzzScore w c := congrArg Prod.snd he2
          have hr := ih r1 r2 hcs
          rw [if_neg (not_le.mpr (lt_of_le_of_lt h2 hk))] at hr
          rw [hr, if_neg (not_le.mpr (by rw [hs0]; exact hk))]

/-- C6: for a whitespace token of length at least 4 that is alphabetic and
starts uppercase, the drug-name repair replaces it by the vocabulary's best
approximate match exactly when that match's edit-distance-ratio score exceeds
85/100 (counting one correction), and leaves it unchanged when the best score
is at most 85; with vocabulary `{"Amoxicillin"}` the token `"Amoxicilin"` is
corrected to `"Amoxicillin"`. -/
theorem drug_name_repair_threshold :
    (∀ (vocab : List (List Char)) (w m : List Char) (s : ℚ),
        vocab ≠ [] → 4 ≤ w.length → pyIsAlphaStr w = true → headIsUpper w = true →
        bestVocabMatch w vocab = some (m, s) →
        (85 < s → correctWord vocab w = (m, 1)) ∧ (s ≤ 85 → correctWord vocab w = (w, 0)))
    ∧ correctWord ["Amoxicillin".data] ("Amoxicilin".data) = ("Amoxicillin".data, 1) := by
  constructor
  · intro vocab w m s hv h4 ha hu hbest
    have hvE : vocab.isEmpty = false := by
      cases vocab with
      | nil => exact absurd rfl hv
      | cons a as => rfl
    have hdig : pyIsDigitStr w = false := by
      cases hd : pyIsDigitStr w with
      | false => rfl
      | true =>
        exfalso
        cases w with
        | nil => simp [pyIsAlphaStr] at ha
        | cons c cs2 =>
          have h1 : isAsciiLetter c = true := by
            simp only [pyIsAlphaStr, Bool.and_eq_true, List.all_cons] at ha
            exact ha.2.1
          have h2 : c.isDigit = true := by
            simp only [pyIsDigitStr, Bool.and_eq_true, List.all_cons] at hd
            exact hd.2.1
          rw [alpha_not_digit c h1] at h2
          exact Bool.false_ne_true h2
    have hcond : (decide (w.length < 4) || pyIsDigitStr w) = false := by
      simp [hdig, not_lt.mpr h4]
    have hf : fuzzyMatchDrug vocab w = if (75 : ℚ) ≤ s then some (m, s) else none := by
      unfold fuzzyMatchDrug
      rw [hvE]
      simpa using extractOne_of_best w 75 vocab m s hbest
    unfold correctWord
    rw [if_neg (by simp [hcond]), if_pos (by simp [hu, ha]), hf]
    constructor
    · intro h85
      have h75 : (75 : ℚ) ≤ s := le_of_lt (lt_trans (by norm_num) h85)
      rw [if_pos h75]
      simp [h85]
    · intro h85
      rcases le_or_lt 75 s with h75 | h75
      · rw [if_pos h75]
        simp [not_lt.mpr h85]
      · rw [if_neg (not_le.mpr h75)]
  · decide

/-- C6 witness: the concrete vocabulary and token of the claim's example,
with best match score `2000/21 > 85`. -/
theorem drug_name_repair_threshold_witness :
    (["Amoxicillin".data] ≠ ([] : List (List Char))) ∧ ((85 : ℚ) < mkRat 2000 21) ∧
    correctWord ["Amoxicillin".data] ("Amoxicilin".data) = ("Amoxicillin".data, 1) :=
  ⟨by decide, by decide,
   (drug_name_repair_threshold.1 ["Amoxicillin".data] ("Amoxicilin".data)
      ("Amoxicillin".data) (mkRat 2000 21) (by decide) (by decide) (by decide)
      (by decide) (by decide)).1 (by decide)⟩

/-! ## C8: dosage validation -/

theorem mem_takeWhile {p : Char → Bool} : ∀ {l : List Char} {c : Char},
    c ∈ l.takeWhile p → p c = true := by
  intro l
  induction l with
  | nil => intro c h; simp at h
  | cons a l ih =>
    intro c h
    rw [List.takeWhile_cons] at h
    by_cases hp : p a = true
    · rw [if_pos hp] at h
      rcases List.mem_cons.mp h with rfl | h2
      · exact hp
      · exact ih h2
    · rw [if_neg hp] at h
      simp at h

theorem span_exact {p : Char → Bool} : ∀ (d r : List Char),
    (∀ c ∈ d, p c = true) → (∀ c, r.head? = some c → p c = false) →
    (d ++ r).takeWhile p = d ∧ (d ++ r).dropWhile p = r := by
  intro d
  induction d with
  | nil =>
    intro r _ hr
    constructor
    · cases r with
      | nil => rfl
      | cons a t => simp [List.takeWhile_cons, hr a rfl]
    · cases r with
      | nil => rfl
      | cons a t => simp [List.dropWhile_cons, hr a rfl]
  | cons a d ih =>
    intro r hd hr
    have hpa : p a = true := hd a (by simp)
    have ihr := ih r (fun c hc => hd c (by simp [hc])) hr
    constructor
    · simp [List.takeWhile_cons, hpa, ihr.1]
    · simp [List.dropWhile_cons, hpa, ihr.2]

theorem space_not_digit {c : Char} (h : isPySpace c = true) : c.isDigit = false := by
  rcases space_cases h with rfl | rfl | rfl | rfl | rfl | rfl <;> rfl

theorem space_ne_dot {c : Char} (h : isPySpace c = true) : c ≠ '.' := by
  rcases space_cases h with rfl | rfl | rfl | rfl | rfl | rfl <;> decide

theorem alpha_ne_dot {c : Char} (h : isAsciiLetter c = true) : c ≠ '.' := by
  intro he
  subst he
  exact absurd h (by decide)

theorem alpha_not_space {c : Char} (h : isAsciiLetter c = true) : isPySpace c = false := by
  cases hs : isPySpace c with
  | false => rfl
  | true =>
    exfalso
    rcases space_cases hs with rfl | rfl | rfl | rfl | rfl | rfl <;> exact absurd h (by decide)

theorem splitDecimal_of_ne_dot (r : List Char) (h : ∀ c, r.head? = some c → c ≠ '.') :
    splitDecimal r = ([], r) := by
  unfold splitDecimal
  split
  · exact absurd rfl (h '.' rfl)
  · rfl

theorem splitDecimal_append (r : List Char) : (splitDecimal r).1 ++ (splitDecimal r).2 = r := by
  unfold splitDecimal
  split
  · split
    · simp
    · simp [List.takeWhile_append_dropWhile]
  · simp

theorem splitDecimal_spec (r : List Char) :
    (splitDecimal r).1 = [] ∨
      ∃ dd, (splitDecimal r).1 = '.' :: dd ∧ dd ≠ [] ∧ ∀ c ∈ dd, c.isDigit = true := by
  unfold splitDecimal
  split
  · rename_i t
    split
    · left; rfl
    · rename_i hne
      right
      refine ⟨t.takeWhile Char.isDigit, rfl, ?_, fun c hc => mem_takeWhile hc⟩
      intro hnil
      exact hne (by rw [hnil]; rfl)
  · left; rfl

/-- Soundness of the anchored match: a successful `numUnitMatchAt` exhibits the
spec-level decomposition. -/
theorem matchAt_sound {s : List Char} {x : List Char × List Char}
    (hx : numUnitMatchAt s = some x) : IsNumUnitAt s := by
  unfold numUnitMatchAt at hx
  by_cases h1 : (s.takeWhile Char.isDigit).isEmpty = true
  · rw [if_pos h1] at hx; exact absurd hx (by simp)
  · rw [if_neg h1] at hx
    by_cases h2 : ((((splitDecimal (s.dropWhile Char.isDigit)).2.dropWhile
        isPySpace).takeWhile isAsciiLetter).isEmpty = true)
    · rw [if_pos h2] at hx; exact absurd hx (by simp)
    · refine ⟨s.takeWhile Char.isDigit, (splitDecimal (s.dropWhile Char.isDigit)).1,
        (splitDecimal (s.dropWhile Char.isDigit)).2.takeWhile isPySpace,
        ((splitDecimal (s.dropWhile Char.isDigit)).2.dropWhile isPySpace).takeWhile isAsciiLetter,
        ((splitDecimal (s.dropWhile Char.isDigit)).2.dropWhile isPySpace).dropWhile isAsciiLetter,
        ?_, ?_, fun c hc => mem_takeWhile hc, splitDecimal_spec _,
        fun c hc => mem_takeWhile hc, ?_, fun c hc => mem_takeWhile hc⟩
      · rw [List.append_assoc, List.append_assoc, List.append_assoc,
          List.takeWhile_append_dropWhile, List.takeWhile_append_dropWhile,
          splitDecimal_append, List.takeWhile_append_dropWhile]
      · intro hnil
        exact h1 (by rw [hnil]; rfl)
      · intro hnil
        exact h2 (by rw [hnil]; rfl)

/-- Completeness of the anchored match: the spec-level decomposition makes
`numUnitMatchAt` succeed. -/
theorem matchAt_complete : ∀ {s : List Char}, IsNumUnitAt s →
    (numUnitMatchAt s).isSome = true := by
  intro s h
  obtain ⟨d, dec, sp, u, rest, hs, hdne, hdall, hdec, hspall, hune, huall⟩ := h
  obtain ⟨u0, u', rfl⟩ : ∃ u0 u', u = u0 :: u' := by
    cases u with
    | nil => exact absurd rfl hune
    | cons a b => exact ⟨a, b, rfl⟩
  have hu0 : isAsciiLetter u0 = true := huall u0 (by simp)
  rw [List.append_assoc, List.append_assoc, List.append_assoc] at hs
  have hheadSU : ∀ c, (sp ++ ((u0 :: u') ++ rest)).head? = some c →
      isPySpace c = true ∨ isAsciiLetter c = true := by
    cases sp with
    | nil =>
      intro c hc
      simp only [List.nil_append, List.cons_append, List.head?_cons, Option.some.injEq] at hc
      exact hc ▸ Or.inr hu0
    | cons a t =>
      intro c hc
      simp only [List.cons_append, List.head?_cons, Option.some.injEq] at hc
      exact hc ▸ Or.inl (hspall a (by simp))
  have hheadSU_nd : ∀ c, (sp ++ ((u0 :: u') ++ rest)).head? = some c → c.isDigit = false := by
    intro c hc
    rcases hheadSU c hc with h | h
    · exact space_not_digit h
    · exact alpha_not_digit c h
  have hdropSp : (sp ++ ((u0 :: u') ++ rest)).dropWhile isPySpace = (u0 :: u') ++ rest := by
    refine (span_exact sp ((u0 :: u') ++ rest) hspall ?_).2
    intro c hc
    simp only [List.cons_append, List.head?_cons, Option.some.injEq] at hc
    exact hc ▸ alpha_not_space hu0
  have hdneE : ¬ d.isEmpty = true := by
    cases d with
    | nil => exact absurd rfl hdne
    | cons a t => simp
  have htw : List.takeWhile isAsciiLetter ((u0 :: u') ++ rest)
      = u0 :: List.takeWhile isAsciiLetter (u' ++ rest) := by
    rw [List.cons_append, List.takeWhile_cons, if_pos hu0]
  rcases hdec with rfl | ⟨dd, rfl, hddne, hddall⟩
  · -- no decimal part
    rw [List.nil_append] at hs
    have hspan := span_exact d (sp ++ ((u0 :: u') ++ rest)) hdall hheadSU_nd
    have hsplit : splitDecimal (sp ++ ((u0 :: u') ++ rest)) = ([], sp ++ ((u0 :: u') ++ rest)) := by
      refine splitDecimal_of_ne_dot _ ?_
      intro c hc
      rcases hheadSU c hc with h | h
      · exact space_ne_dot h
      · exact alpha_ne_dot h
    have hsplit2 : (splitDecimal (sp ++ ((u0 :: u') ++ rest))).2 = sp ++ ((u0 :: u') ++ rest) := by
      rw [hsplit]
    subst hs
    simp only [numUnitMatchAt]
    rw [hspan.1, hspan.2, if_neg hdneE, hsplit2, hdropSp, htw]
    simp
  · -- decimal part '.' :: dd
    have hT := span_exact dd (sp ++ ((u0 :: u') ++ rest)) hddall hheadSU_nd
    have hddneE : ¬ (List.takeWhile Char.isDigit (dd ++ (sp ++ ((u0 :: u') ++ rest)))).isEmpty = true := by
      rw [hT.1]
      cases dd with
      | nil => exact absurd rfl hddne
      | cons a t => simp
    have hdot : ∀ c, (('.' :: dd) ++ (sp ++ ((u0 :: u') ++ rest))).head? = some c →
        c.isDigit = false := by
      intro c hc
      simp only [List.cons_append, List.head?_cons, Option.some.injEq] at hc
      exact hc ▸ rfl
    have hspan := span_exact d (('.' :: dd) ++ (sp ++ ((u0 :: u') ++ rest))) hdall hdot
    have hsplit2 : (splitDecimal (('.' :: dd) ++ (sp ++ ((u0 :: u') ++ rest)))).2
        = sp ++ ((u0 :: u') ++ rest) := by
      have he : splitDecimal (('.' :: dd) ++ (sp ++ ((u0 :: u') ++ rest)))
          = if ((dd ++ (sp ++ ((u0 :: u') ++ rest))).takeWhile Char.isDigit).isEmpty
            then ([], '.' :: (dd ++ (sp ++ ((u0 :: u') ++ rest))))
            else ('.' :: (dd ++ (sp ++ ((u0 :: u') ++ rest))).takeWhile Char.isDigit,
                  (dd ++ (sp ++ ((u0 :: u') ++ rest))).dropWhile Char.isDigit) := rfl
      rw [he, if_neg hddneE, hT.2]
    subst hs
    simp only [numUnitMatchAt]
    rw [hspan.1, hspan.2, if_neg hdneE, hsplit2, hdropSp, htw]
    simp

theorem searchNumUnit_of_suffix : ∀ (s : List Char) (p : Nat),
    (numUnitMatchAt (s.drop p)).isSome = true → (searchNumUnit s).isSome = true := by
  intro s
  induction s with
  | nil =>
    intro p h
    rw [List.drop_nil] at h
    exact absurd h (by decide)
  | cons c cs ih =>
    intro p h
    cases p with
    | zero =>
      rw [List.drop_zero] at h
      unfold searchNumUnit
      cases hm : numUnitMatchAt (c :: cs) with
      | some r => simp
      | none => rw [hm] at h; exact absurd h (by decide)
    | succ q =>
      rw [List.drop_succ_cons] at h
      have h2 := ih q h
      unfold searchNumUnit
      cases hm : numUnitMatchAt (c :: cs) with
      | some r => simp
      | none => simpa using h2

theorem searchNumUnit_suffix_of : ∀ s : List Char, (searchNumUnit s).isSome = true →
    ∃ p, (numUnitMatchAt (s.drop p)).isSome = true := by
  intro s
  induction s with
  | nil => intro h; exact absurd h (by decide)
  | cons c cs ih =>
    intro h
    cases hm : numUnitMatchAt (c :: cs) with
    | some r => exact ⟨0, by rw [List.drop_zero, hm]; rfl⟩
    | none =>
      unfold searchNumUnit at h
      rw [hm] at h
      obtain ⟨p, hp⟩ := ih h
      exact ⟨p + 1, by rwa [List.drop_succ_cons]⟩

/-- C8: dosage validation maps `"500 MG"` to `(valid, "500mg")` and `"abc"` to
`(invalid, "abc")`; unit synonyms are normalized (`gm`→`g`, `microgram`→`mcg`,
`iu`→`IU`); in general the result is valid exactly when the string contains a
`<number><unit>` pattern (digits, optional decimal part, optional spaces,
letters), and on every invalid result the value is returned unchanged. -/
theorem validate_dosage_spec :
    validateDosage ("500 MG".data) = (true, "500mg".data) ∧
    validateDosage ("abc".data) = (false, "abc".data) ∧
    validateDosage ("2 gm".data) = (true, "2g".data) ∧
    validateDosage ("3 microgram".data) = (true, "3mcg".data) ∧
    validateDosage ("10 iu".data) = (true, "10IU".data) ∧
    (∀ s : List Char, ((validateDosage s).1 = true ↔ HasNumUnit s)) ∧
    (∀ s : List Char, (validateDosage s).1 = false → (validateDosage s).2 = s) := by
  refine ⟨by decide, by decide, by decide, by decide, by decide, ?_, ?_⟩
  · intro s
    constructor
    · intro h
      cases hm : searchNumUnit s with
      | none =>
        unfold validateDosage at h
        rw [hm] at h
        simp at h
      | some r =>
        have hsome : (searchNumUnit s).isSome = true := by rw [hm]; rfl
        obtain ⟨p, hp⟩ := searchNumUnit_suffix_of s hsome
        cases hq : numUnitMatchAt (s.drop p) with
        | none => rw [hq] at hp; exact absurd hp (by decide)
        | some x => exact ⟨p, matchAt_sound hq⟩
    · intro h
      obtain ⟨p, hip⟩ := h
      have hp : (numUnitMatchAt (s.drop p)).isSome = true := matchAt_complete hip
      have hsome := searchNumUnit_of_suffix s p hp
      cases hm : searchNumUnit s with
      | none => rw [hm] at hsome; exact absurd hsome (by decide)
      | some r =>
        obtain ⟨amt, unit⟩ := r
        unfold validateDosage
        rw [hm]
  · intro s h
    cases hm : searchNumUnit s with
    | none =>
      unfold validateDosage
      rw [hm]
    | some r =>
      obtain ⟨amt, unit⟩ := r
      unfold validateDosage at h
      rw [hm] at h
      simp at h

/-- C8 witness: the invalid-input clause applied at the concrete input `"abc"`. -/
theorem validate_dosage_spec_witness :
    (validateDosage ("abc".data)).1 = false ∧ (validateDosage ("abc".data)).2 = "abc".data :=
  ⟨by decide, validate_dosage_spec.2.2.2.2.2.2 ("abc".data) (by decide)⟩

end MediMatch
